import Mathlib

/-!
Verification development for the static-serve repository: a build-time
asset-embedding pipeline (static-serve-macro) and a request-time
negotiation engine (static-serve).  Bytes are modelled as natural
numbers below 256, paths as character lists (the sources validate UTF-8
before the relevant operations), and filesystem-path component lists
model the component-wise semantics of Rust Path comparisons.
-/

set_option maxHeartbeats 1000000

namespace StaticServe

/-! ### Byte helpers -/

/-- Little-endian interpretation of a byte list, as in u64 from le bytes. -/
def u64_from_le (bytes : List Nat) : Nat :=
  bytes.foldr (fun b acc => b + 256 * acc) 0

/-- Big-endian serialization of a natural number into n bytes. -/
def beBytes : Nat → Nat → List Nat
  | 0, _ => []
  | n + 1, v => beBytes n (v / 256) ++ [v % 256]

/-! ### SHA-1 (the sha1 crate is an external collaborator; the spec calls it
a standard 160-bit cryptographic digest, so the standard algorithm is
modelled here). -/

/-- Reduction modulo 2 to the 32, the word size of SHA-1. -/
def w32 (x : Nat) : Nat := x % 4294967296

/-- Rotate a 32-bit value left by n bits. -/
def rotl32 (n x : Nat) : Nat := (x * 2 ^ n) % 4294967296 + x / 2 ^ (32 - n)

/-- Bitwise complement on 32 bits. -/
def not32 (x : Nat) : Nat := x ^^^ 4294967295

/-- SHA-1 nonlinear round function. -/
def sha1f (i b c d : Nat) : Nat :=
  if i < 20 then (b &&& c) ||| (not32 b &&& d)
  else if i < 40 then b ^^^ c ^^^ d
  else if i < 60 then (b &&& c) ||| (b &&& d) ||| (c &&& d)
  else b ^^^ c ^^^ d

/-- SHA-1 round constants. -/
def sha1k (i : Nat) : Nat :=
  if i < 20 then 1518500249
  else if i < 40 then 1859775393
  else if i < 60 then 2400959708
  else 3395469782

/-- Group bytes into big-endian 32-bit words. -/
def toWords32 : List Nat → List Nat
  | b0 :: b1 :: b2 :: b3 :: rest =>
    (((b0 * 256 + b1) * 256 + b2) * 256 + b3) :: toWords32 rest
  | _ => []

/-- Extend the 16-word schedule by n further words. -/
def sha1extend (ws : List Nat) : Nat → List Nat
  | 0 => ws
  | n + 1 =>
    let prev := sha1extend ws n
    prev ++ [rotl32 1 ((prev.getD (prev.length - 3) 0) ^^^ (prev.getD (prev.length - 8) 0) ^^^
      (prev.getD (prev.length - 14) 0) ^^^ (prev.getD (prev.length - 16) 0))]

/-- One SHA-1 round. -/
def sha1step (ws : List Nat) (st : Nat × Nat × Nat × Nat × Nat) (i : Nat) :
    Nat × Nat × Nat × Nat × Nat :=
  match st with
  | (a, b, c, d, e) =>
    (w32 (rotl32 5 a + sha1f i b c d + e + sha1k i + ws.getD i 0), a, rotl32 30 b, c, d)

/-- Process one 64-byte chunk. -/
def sha1chunk (h : Nat × Nat × Nat × Nat × Nat) (chunk : List Nat) :
    Nat × Nat × Nat × Nat × Nat :=
  let ws := sha1extend (toWords32 chunk) 64
  match (List.range 80).foldl (sha1step ws) h, h with
  | (a, b, c, d, e), (h0, h1, h2, h3, h4) =>
    (w32 (h0 + a), w32 (h1 + b), w32 (h2 + c), w32 (h3 + d), w32 (h4 + e))

/-- Split a byte list into 64-byte chunks. -/
def chunks64 (l : List Nat) : List (List Nat) :=
  if h : l = [] then [] else l.take 64 :: chunks64 (l.drop 64)
termination_by l.length
decreasing_by
  simp only [List.length_drop]
  have : 0 < l.length := List.length_pos.mpr h
  omega

/-- SHA-1 message padding. -/
def sha1pad (msg : List Nat) : List Nat :=
  let withOne := msg ++ [128]
  let zeros := (64 - (withOne.length + 8) % 64) % 64
  withOne ++ List.replicate zeros 0 ++ beBytes 8 (8 * msg.length)

/-- Modelled from the spec: the external sha1 crate (a collaborator outside
this repository) computes the standard 160-bit cryptographic digest of the
input; this is the standard SHA-1 algorithm producing 20 bytes. -/
def sha1 (msg : List Nat) : List Nat :=
  match (chunks64 (sha1pad msg)).foldl sha1chunk
      (1732584193, 4023233417, 2562383102, 271733878, 3285377520) with
  | (h0, h1, h2, h3, h4) =>
    beBytes 4 h0 ++ beBytes 4 h1 ++ beBytes 4 h2 ++ beBytes 4 h3 ++ beBytes 4 h4

/-! ### Hexadecimal rendering -/

/-- Lowercase hexadecimal digit characters. -/
def hexDigitChar (n : Nat) : Char := "0123456789abcdef".data.getD n (Char.ofNat 48)

/-- Fixed-width lowercase hexadecimal rendering, zero padded, as produced
by the width-16 zero-padding lowercase hex format used in the source. -/
def hexPad : Nat → Nat → List Char
  | 0, _ => []
  | n + 1, v => hexPad n (v / 16) ++ [hexDigitChar (v % 16)]

/-! ### Macro crate: etag -/

/-- Embedding of the etag function of static-serve-macro: SHA-1 the
contents, interpret bytes 0..8 and 8..16 of the digest as little-endian
64-bit values, XOR them, and render the result as a double-quoted,
zero-padded, 16-digit lowercase hex string. -/
def etag (contents : List Nat) : String :=
  let digest := sha1 contents
  let hash := u64_from_le (digest.take 8) ^^^ u64_from_le ((digest.drop 8).take 8)
  String.mk (Char.ofNat 34 :: (hexPad 16 hash ++ [Char.ofNat 34]))

/-- Reference definition following the specification wording: fold the
digest by XORing its first and second 8-byte halves bytewise, read the
folded bytes as one 64-bit value, and render exactly 16 zero-padded
lowercase hexadecimal digits between double quotes. -/
def etagRef (contents : List Nat) : String :=
  let digest := sha1 contents
  let folded := List.zipWith (fun x y => x ^^^ y) (digest.take 8) ((digest.drop 8).take 8)
  String.mk (Char.ofNat 34 :: (hexPad 16 (u64_from_le folded) ++ [Char.ofNat 34]))

/-! ### Macro crate: compression significance -/

/-- Embedding of is_compression_significant: the compressed form is kept
only when strictly smaller than contents_len / 10 * 9 in integer
arithmetic. -/
def is_compression_significant (compressed_len contents_len : Nat) : Bool :=
  decide (compressed_len < contents_len / 10 * 9)

/-- Embedding of maybe_get_compressed: keep the compressed bytes only if
the compression is significant. -/
def maybe_get_compressed (compressed contents : List Nat) : Option (List Nat) :=
  if is_compression_significant compressed.length contents.length then some compressed
  else none

/-! ### Macro crate: content type -/

/-- A Rust OsStr: either valid unicode text or not representable. -/
inductive OsStrM where
  | unicode (s : String)
  | nonUnicode
deriving DecidableEq

/-- The build-time error type of static-serve-macro (the constructors
reachable in this model). -/
inductive EmbedError where
  | UnknownFileExtension (ext : Option OsStrM)
  | InvalidFileExtension
deriving DecidableEq

/-- Embedding of file_content_type: map the file extension through the
first guess of the external mime table; fail when the extension is
missing, not unicode, or unknown to the table.  The mime_guess table is an
external collaborator and is passed as the function guess. -/
def file_content_type (guess : String → Option String) :
    Option OsStrM → Except EmbedError String
  | some (OsStrM.unicode ext) =>
    match guess ext with
    | some g => Except.ok g
    | none => Except.error (EmbedError.UnknownFileExtension (some (OsStrM.unicode ext)))
  | some OsStrM.nonUnicode => Except.error EmbedError.InvalidFileExtension
  | none => Except.error (EmbedError.UnknownFileExtension none)

/-! ### Macro crate: html extension stripping and route paths -/

/-- Embedding of the Rust strip_suffix on character lists. -/
def stripSuffixOpt (suf s : List Char) : Option (List Char) :=
  if suf.isSuffixOf s then some (s.take (s.length - suf.length)) else none

/-- Embedding of the Rust strip_prefix on character lists. -/
def stripPrefixOpt (pre s : List Char) : Option (List Char) :=
  if pre.isPrefixOf s then some (s.drop pre.length) else none

/-- First half of strip_html_ext: drop a trailing .html, otherwise a
trailing .htm, from the path. -/
def strip_html_stage1 (s : List Char) : List Char :=
  match stripSuffixOpt ".html".data s with
  | some p => p
  | none =>
    match stripSuffixOpt ".htm".data s with
    | some p => p
    | none => s

/-- Second half of strip_html_ext: if the remainder ends in /index, drop
the trailing index (the fallback slash of the source is unreachable). -/
def strip_html_stage2 (output : List Char) : List Char :=
  if "/index".data.isSuffixOf output then
    match stripSuffixOpt "index".data output with
    | some p => p
    | none => "/".data
  else output

/-- Embedding of strip_html_ext from static-serve-macro. -/
def strip_html_ext (s : List Char) : List Char :=
  strip_html_stage2 (strip_html_stage1 s)

/-- First step of the route transformation as the specification words it:
drop a trailing .html or .htm suffix from the root-relative path. -/
def routeStripExtSpec (rel : List Char) : List Char :=
  if ".html".data.isSuffixOf rel then rel.take (rel.length - 5)
  else if ".htm".data.isSuffixOf rel then rel.take (rel.length - 4)
  else rel

/-- Second step of the route transformation as the specification words it:
if the remainder ends in /index, drop the trailing index segment. -/
def routeStripIndexSpec (r1 : List Char) : List Char :=
  if "/index".data.isSuffixOf r1 then r1.take (r1.length - 5) else r1

/-- The route-path transformation as the specification words it, applied
to the root-relative path. -/
def routePathSpec (rel : List Char) : List Char :=
  routeStripIndexSpec (routeStripExtSpec rel)

/-- Embedding of the entry_path computation of EmbeddedFileInfo.from_path
in directory mode: when stripping is on and the content type is text/html,
strip the html extension from the absolute path and then the assets-dir
prefix (empty on failure); otherwise strip only the assets-dir prefix. -/
def entry_path_dir (dir pathStr : List Char) (should_strip_html_ext : Bool)
    (content_type : String) : Option (List Char) :=
  if should_strip_html_ext && (content_type == "text/html") then
    some ((stripPrefixOpt dir (strip_html_ext pathStr)).getD [])
  else
    stripPrefixOpt dir pathStr

/-! ### Macro crate: per-file processing -/

/-- The fields of EmbeddedFileInfo relevant to the embedding. -/
structure FileInfo where
  entry_path : Option (List Char)
  content_type : String
  etag_str : String
  contents : List Nat
  maybe_gzip : Option (List Nat)
  maybe_zstd : Option (List Nat)
  cache_busted : Bool
deriving DecidableEq

/-- Embedding of EmbeddedFileInfo.from_path.  The compression codecs and
the mime table are external collaborators passed as functions; contents
are the bytes read from the file, ext its extension, pathStr its absolute
path, assets_dir the canonical assets root (none in single-file mode). -/
def from_path (guess : String → Option String) (gzipC zstdC : List Nat → List Nat)
    (contents : List Nat) (ext : Option OsStrM) (pathStr : List Char)
    (assets_dir : Option (List Char)) (should_compress should_strip_html_ext : Bool)
    (cache_busted : Bool) : Except EmbedError FileInfo :=
  let maybe_gzip :=
    if should_compress then maybe_get_compressed (gzipC contents) contents else none
  let maybe_zstd :=
    if should_compress then maybe_get_compressed (zstdC contents) contents else none
  match file_content_type guess ext with
  | Except.error e => Except.error e
  | Except.ok content_type =>
    let entry_path : Option (List Char) :=
      match assets_dir with
      | some dir => entry_path_dir dir pathStr should_strip_html_ext content_type
      | none => none
    Except.ok
      { entry_path := entry_path
        content_type := content_type
        etag_str := etag contents
        contents := contents
        maybe_gzip := maybe_gzip
        maybe_zstd := maybe_zstd
        cache_busted := cache_busted }

/-! ### Macro crate: cache busting and the route loop -/

/-- Embedding of the cache-busting decision of generate_static_routes.
Paths are component lists, matching the component-wise semantics of the
Rust Path starts_with used by the source. -/
def is_entry_cache_busted (entry : List String) (cbDirs cbFiles : List (List String)) : Bool :=
  cbDirs.any (fun dir => dir.isPrefixOf entry) || cbFiles.contains entry

/-- One discovered file of the assets directory: its path as components
(for cache busting), its path as text, its extension and its bytes. -/
structure EntryData where
  pathComponents : List String
  pathStr : List Char
  ext : Option OsStrM
  contents : List Nat

/-- Per-entry work of the generate_static_routes loop. -/
def process_entry (guess : String → Option String) (gzipC zstdC : List Nat → List Nat)
    (dir : List Char) (cbDirs cbFiles : List (List String))
    (should_compress should_strip_html_ext : Bool) (e : EntryData) :
    Except EmbedError FileInfo :=
  from_path guess gzipC zstdC e.contents e.ext e.pathStr (some dir)
    should_compress should_strip_html_ext
    (is_entry_cache_busted e.pathComponents cbDirs cbFiles)

/-- The error-propagating accumulation of the generate_static_routes
loop: the first failing entry aborts the whole batch. -/
def generate_list (f : EntryData → Except EmbedError FileInfo) :
    List EntryData → Except EmbedError (List FileInfo)
  | [] => Except.ok []
  | e :: rest =>
    match f e with
    | Except.error err => Except.error err
    | Except.ok info =>
      match generate_list f rest with
      | Except.error err => Except.error err
      | Except.ok infos => Except.ok (info :: infos)

/-- Embedding of generate_static_routes over the discovered entries. -/
def generate_static_routes (guess : String → Option String)
    (gzipC zstdC : List Nat → List Nat) (dir : List Char)
    (cbDirs cbFiles : List (List String)) (should_compress should_strip_html_ext : Bool)
    (entries : List EntryData) : Except EmbedError (List FileInfo) :=
  generate_list
    (process_entry guess gzipC zstdC dir cbDirs cbFiles should_compress should_strip_html_ext)
    entries

/-! ### Serving crate: the negotiation engine -/

/-- The accept/reject status for gzip and zstd encoding. -/
structure AcceptEncoding where
  gzip : Bool
  zstd : Bool

/-- A parsed byte range: first and last requested byte offsets. -/
abbrev HttpRange := Nat × Nat

/-- Modelled from the spec: a successful result of the external
range-serving collaborator (range_requests crate) — a body together with
its status and its own content-range and content-length headers. -/
structure RangeOk where
  status : Nat
  contentRange : Option String
  contentLength : Option String
  body : List Nat

/-- Modelled from the spec: the unsatisfiable-range result of the external
range-serving collaborator, carrying a content-range of the form
bytes star slash size and rendered with status 416. -/
structure UnsatisfiableRange where
  contentRange : String

/-- The range-serving collaborator capability. -/
abbrev RangeServer := List Nat → Option HttpRange → Except UnsatisfiableRange RangeOk

/-- Embedding of IfNoneMatch.matches: the header value, when present, is
compared byte-for-byte against the stored etag. -/
def ifNoneMatchMatches (inm : Option String) (etagStr : String) : Bool :=
  match inm with
  | some v => v == etagStr
  | none => false

/-- The arguments of static_inner. -/
structure StaticInnerData where
  content_type : String
  etag : String
  body : List Nat
  body_gz : Option (List Nat)
  body_zst : Option (List Nat)
  cache_busted : Bool
  accept_encoding : AcceptEncoding
  if_none_match : Option String
  http_range : Option HttpRange

/-- An HTTP response: status, headers in emission order, body bytes. -/
structure HttpResponse where
  status : Nat
  headers : List (String × String)
  body : List Nat
deriving DecidableEq

/-- Embedding of the encoding-selection match of static_inner: zstd first
when accepted, present and no range was requested; then gzip likewise;
otherwise the raw body with no content-encoding header. -/
def selectBody (gzipAccepted : Bool) (body_gz : Option (List Nat)) (zstdAccepted : Bool)
    (body_zst : Option (List Nat)) (body : List Nat) (http_range : Option HttpRange) :
    List Nat × Option (String × String) :=
  match gzipAccepted, body_gz, zstdAccepted, body_zst, http_range with
  | _, _, true, some bz, none => (bz, some ("content-encoding", "zstd"))
  | true, some bg, _, _, none => (bg, some ("content-encoding", "gzip"))
  | _, _, _, _, _ => (body, none)

/-- Embedding of static_inner from the static-serve crate, parameterized
by the external range-serving collaborator rs. -/
def static_inner (rs : RangeServer) (d : StaticInnerData) : HttpResponse :=
  let optional_cache_control : List (String × String) :=
    if d.cache_busted then [("cache-control", "public, max-age=31536000, immutable")] else []
  let resp_base :=
    [("content-type", d.content_type), ("etag", d.etag), ("vary", "Accept-Encoding")] ++
      optional_cache_control
  if ifNoneMatchMatches d.if_none_match d.etag then
    { status := 304, headers := resp_base, body := [] }
  else
    let resp_base2 := ("accept-ranges", "bytes") :: resp_base
    let sel := selectBody d.accept_encoding.gzip d.body_gz d.accept_encoding.zstd d.body_zst
      d.body d.http_range
    if sel.1.isEmpty then
      { status := 200, headers := resp_base2 ++ sel.2.toList, body := sel.1 }
    else
      match rs sel.1 d.http_range with
      | Except.ok o =>
        { status := o.status
          headers := resp_base2 ++ sel.2.toList ++
            (o.contentRange.map (fun v => ("content-range", v))).toList ++
            (o.contentLength.map (fun v => ("content-length", v))).toList
          body := o.body }
      | Except.error u =>
        { status := 416
          headers := resp_base2 ++ [("content-range", u.contentRange)]
          body := [] }

/-- Modelled from the spec: the external range-serving collaborator
serve_file_with_http_range of the range_requests crate.  With no range it
returns the full body; with a range it returns a 206 slice when the start
is inside the body and the range is ordered, otherwise an unsatisfiable
result carrying a bytes star slash size content-range. -/
def serve_file_with_http_range (body : List Nat) :
    Option HttpRange → Except UnsatisfiableRange RangeOk
  | none =>
    Except.ok
      { status := 200
        contentRange := none
        contentLength := some (toString body.length)
        body := body }
  | some (s, e) =>
    if s ≤ e ∧ s < body.length then
      Except.ok
        { status := 206
          contentRange := some
            ("bytes " ++ toString s ++ "-" ++ toString (min e (body.length - 1)) ++ "/" ++
              toString body.length)
          contentLength := some (toString (min e (body.length - 1) - s + 1))
          body := (body.drop s).take (min e (body.length - 1) - s + 1) }
    else
      Except.error { contentRange := "bytes */" ++ toString body.length }

end StaticServe

namespace StaticServe

/-! ### Helper lemmas -/

theorem generate_list_isOk_false (f : EntryData → Except EmbedError FileInfo)
    (entries : List EntryData) (e : EntryData) (he : e ∈ entries)
    (hf : (f e).isOk = false) : (generate_list f entries).isOk = false := by
  induction entries with
  | nil => cases he
  | cons a rest ih =>
    rcases List.mem_cons.mp he with rfl | hmem
    · unfold generate_list
      cases hfa : f e with
      | error err => simp [Except.isOk, Except.toBool]
      | ok info => rw [hfa] at hf; simp [Except.isOk, Except.toBool] at hf
    · unfold generate_list
      cases hfa : f a with
      | error err => simp [Except.isOk, Except.toBool]
      | ok info =>
        have hrest := ih hmem
        cases hg : generate_list f rest with
        | error err => simp [Except.isOk, Except.toBool]
        | ok infos => rw [hg] at hrest; simp [Except.isOk, Except.toBool] at hrest

/-! ### Claim theorems -/

/-- C2: a request whose conditional-match token equals the stored etag is
answered 304 with no body and exactly the content-type, etag and vary
headers plus the cache directive when cache_busted, independently of the
accept-encoding and range headers and of the range collaborator. -/
theorem c2_conditional_match_not_modified (rs : RangeServer) (ct e : String) (b : List Nat)
    (gz zst : Option (List Nat)) (cb : Bool) (ae : AcceptEncoding) (hr : Option HttpRange) :
    static_inner rs
        { content_type := ct, etag := e, body := b, body_gz := gz, body_zst := zst
          cache_busted := cb, accept_encoding := ae, if_none_match := some e
          http_range := hr } =
      { status := 304
        headers := [("content-type", ct), ("etag", e), ("vary", "Accept-Encoding")] ++
          (if cb then [("cache-control", "public, max-age=31536000, immutable")] else [])
        body := [] } := by
  simp [static_inner, ifNoneMatchMatches]

/-- C3, counterexample: the inclusion test is not equivalent to the
strict real-arithmetic 90 percent threshold; a 9-byte compression of an
11-byte buffer is below 90 percent of the original yet is rejected. -/
theorem c3_counterexample_ninety_percent :
    ¬ ∀ (compressed contents : List Nat),
        ((maybe_get_compressed compressed contents).isSome = true ↔
          10 * compressed.length < 9 * contents.length) := by
  intro h
  have h2 := (h (List.replicate 9 0) (List.replicate 11 0)).mpr (by norm_num)
  norm_num [maybe_get_compressed, is_compression_significant] at h2

/-- C3, amended: a compressed variant is kept iff its length is strictly
below contents_len / 10 * 9 in integer arithmetic, and the two codecs are
judged independently by from_path: each variant equals the independent
decision on its own codec output. -/
theorem c3_threshold_and_independence (compressed contents : List Nat)
    (guess : String → Option String) (gzipC zstdC : List Nat → List Nat)
    (bs : List Nat) (ext : Option OsStrM) (p : List Char) (dOpt : Option (List Char))
    (strip cb : Bool) :
    ((maybe_get_compressed compressed contents).isSome = true ↔
      compressed.length < contents.length / 10 * 9) ∧
    (from_path guess gzipC zstdC bs ext p dOpt true strip cb).map FileInfo.maybe_gzip =
      (from_path guess gzipC zstdC bs ext p dOpt true strip cb).map
        (fun _ => maybe_get_compressed (gzipC bs) bs) ∧
    (from_path guess gzipC zstdC bs ext p dOpt true strip cb).map FileInfo.maybe_zstd =
      (from_path guess gzipC zstdC bs ext p dOpt true strip cb).map
        (fun _ => maybe_get_compressed (zstdC bs) bs) := by
  refine ⟨?_, ?_, ?_⟩
  · by_cases hc : compressed.length < contents.length / 10 * 9 <;>
      simp [maybe_get_compressed, is_compression_significant, hc]
  · simp only [from_path]
    cases h : file_content_type guess ext <;> simp [Except.map]
  · simp only [from_path]
    cases h : file_content_type guess ext <;> simp [Except.map]

/-- C6: a discovered file is cache busted iff its component path is
prefixed, component-wise, by a cache-busted directory or equals a
cache-busted file exactly; an exact file match works without the
directory being listed, and the entry ab does not prefix-match abcd;
from_path carries the decision unchanged into the descriptor. -/
theorem c6_cache_busted_characterization :
    (∀ (entry : List String) (cbDirs cbFiles : List (List String)),
        is_entry_cache_busted entry cbDirs cbFiles = true ↔
          ((∃ d ∈ cbDirs, d <+: entry) ∨ entry ∈ cbFiles)) ∧
    is_entry_cache_busted ["abcd"] [["ab"]] [] = false ∧
    is_entry_cache_busted ["assets", "app.js"] [] [["assets", "app.js"]] = true ∧
    (∀ (guess : String → Option String) (gzipC zstdC : List Nat → List Nat)
        (dir : List Char) (cbDirs cbFiles : List (List String)) (sc st : Bool)
        (e : EntryData),
        (process_entry guess gzipC zstdC dir cbDirs cbFiles sc st e).map
            FileInfo.cache_busted =
          (process_entry guess gzipC zstdC dir cbDirs cbFiles sc st e).map
            (fun _ => is_entry_cache_busted e.pathComponents cbDirs cbFiles)) := by
  refine ⟨?_, by decide, by decide, ?_⟩
  · intro entry cbDirs cbFiles
    simp [is_entry_cache_busted, List.any_eq_true, List.contains_iff_exists_mem_beq]
  · intro guess gzipC zstdC dir cbDirs cbFiles sc st e
    simp only [process_entry, from_path]
    cases h : file_content_type guess e.ext <;> simp [Except.map]

/-- C8: determining a content type fails exactly when the extension is
absent, not representable as unicode, or unknown to the mime table; a
failure fails the whole from_path step and, through the route loop, the
whole asset batch. -/
theorem c8_unknown_extension_failfast :
    (∀ (guess : String → Option String) (e : Option OsStrM),
        ((file_content_type guess e).isOk = false ↔
          (e = none ∨ e = some OsStrM.nonUnicode ∨
            ∃ s, e = some (OsStrM.unicode s) ∧ guess s = none))) ∧
    (∀ (guess : String → Option String) (gzipC zstdC : List Nat → List Nat)
        (bs : List Nat) (ext : Option OsStrM) (p : List Char)
        (dOpt : Option (List Char)) (sc st cb : Bool),
        (from_path guess gzipC zstdC bs ext p dOpt sc st cb).isOk =
          (file_content_type guess ext).isOk) ∧
    (∀ (guess : String → Option String) (gzipC zstdC : List Nat → List Nat)
        (dir : List Char) (cbDirs cbFiles : List (List String)) (sc st : Bool)
        (entries : List EntryData) (e : EntryData),
        e ∈ entries → (file_content_type guess e.ext).isOk = false →
        (generate_static_routes guess gzipC zstdC dir cbDirs cbFiles sc st
            entries).isOk = false) := by
  refine ⟨?_, ?_, ?_⟩
  · intro guess e
    rcases e with _ | os
    · simp [file_content_type, Except.isOk, Except.toBool]
    · rcases os with s | _
      · cases hg : guess s <;>
          simp [file_content_type, hg, Except.isOk, Except.toBool]
      · simp [file_content_type, Except.isOk, Except.toBool]
  · intro guess gzipC zstdC bs ext p dOpt sc st cb
    simp only [from_path]
    cases h : file_content_type guess ext <;> simp [Except.isOk, Except.toBool]
  · intro guess gzipC zstdC dir cbDirs cbFiles sc st entries e he hbad
    apply generate_list_isOk_false _ _ e he
    rw [show (process_entry guess gzipC zstdC dir cbDirs cbFiles sc st e) =
      from_path guess gzipC zstdC e.contents e.ext e.pathStr (some dir) sc st
        (is_entry_cache_busted e.pathComponents cbDirs cbFiles) from rfl]
    simp only [from_path]
    cases h : file_content_type guess e.ext <;>
      simp_all [Except.isOk, Except.toBool]

end StaticServe


namespace StaticServe

theorem stripSuffixOpt_eq_some {suf s : List Char} (h : suf <:+ s) :
    stripSuffixOpt suf s = some (s.take (s.length - suf.length)) := by
  unfold stripSuffixOpt
  simp [List.isSuffixOf_iff_suffix, h]

theorem stripSuffixOpt_eq_none {suf s : List Char} (h : ¬ suf <:+ s) :
    stripSuffixOpt suf s = none := by
  unfold stripSuffixOpt
  simp [List.isSuffixOf_iff_suffix, h]

theorem suffix_append_absorb {suf r : List Char} (d : List Char) (h : suf <:+ r) :
    suf <:+ d ++ r := by
  obtain ⟨p, hp⟩ := h
  exact ⟨d ++ p, by rw [List.append_assoc, hp]⟩

theorem suffix_append_iff_of_cases {suf r : List Char} (d : List Char)
    (hcases : r <:+ suf → suf <:+ r) : (suf <:+ d ++ r) ↔ (suf <:+ r) := by
  constructor
  · intro hs
    rcases Nat.le_total suf.length r.length with hl | hl
    · exact List.suffix_of_suffix_length_le hs (List.suffix_append d r) hl
    · exact hcases (List.suffix_of_suffix_length_le (List.suffix_append d r) hs hl)
  · exact suffix_append_absorb d

theorem slash_cons_not_suffix {suf t : List Char} (hmem : '/' ∉ suf)
    (h : ('/' :: t) <:+ suf) : False :=
  hmem (h.subset (List.mem_cons_self _ _))

theorem slashindex_cases {t : List Char} (h : ('/' :: t) <:+ "/index".data) :
    "/index".data <:+ ('/' :: t) := by
  obtain ⟨p, hp⟩ := h
  cases p with
  | nil =>
    rw [List.nil_append] at hp
    rw [hp]
  | cons c p2 =>
    exfalso
    have hidx : "/index".data = '/' :: "index".data := by decide
    rw [hidx, List.cons_append] at hp
    injection hp with hc hrest
    have hm : ('/' : Char) ∈ p2 ++ '/' :: t :=
      List.mem_append_right _ (List.mem_cons_self _ _)
    rw [hrest] at hm
    exact absurd hm (by decide)

theorem slashindex_suffix_append_iff {t : List Char} (d : List Char) :
    ("/index".data <:+ d ++ '/' :: t) ↔ ("/index".data <:+ '/' :: t) :=
  suffix_append_iff_of_cases d slashindex_cases

theorem take_append_sub (d r : List Char) (k : Nat) (hk : k ≤ r.length) :
    (d ++ r).take ((d ++ r).length - k) = d ++ r.take (r.length - k) := by
  rw [List.length_append,
    show d.length + r.length - k = d.length + (r.length - k) by omega,
    List.take_append_eq_append_take,
    show d.take (d.length + (r.length - k)) = d from List.take_of_length_le (by omega),
    show d.length + (r.length - k) - d.length = r.length - k by omega]

theorem stripSuffixOpt_append (suf d r : List Char) (hc : r <:+ suf → suf <:+ r) :
    stripSuffixOpt suf (d ++ r) = (stripSuffixOpt suf r).map (fun p => d ++ p) := by
  by_cases h : suf <:+ r
  · rw [stripSuffixOpt_eq_some ((suffix_append_iff_of_cases d hc).mpr h),
      stripSuffixOpt_eq_some h]
    simp only [Option.map_some']
    rw [take_append_sub d r suf.length h.length_le]
  · rw [stripSuffixOpt_eq_none (fun hh => h ((suffix_append_iff_of_cases d hc).mp hh)),
      stripSuffixOpt_eq_none h]
    rfl

theorem strip_html_stage1_eq_html {s : List Char} (h : ".html".data <:+ s) :
    strip_html_stage1 s = s.take (s.length - 5) := by
  unfold strip_html_stage1
  rw [stripSuffixOpt_eq_some h, show ".html".data.length = 5 from by decide]

theorem strip_html_stage1_eq_htm {s : List Char} (h1 : ¬ ".html".data <:+ s)
    (h2 : ".htm".data <:+ s) : strip_html_stage1 s = s.take (s.length - 4) := by
  unfold strip_html_stage1
  rw [stripSuffixOpt_eq_none h1, stripSuffixOpt_eq_some h2,
    show ".htm".data.length = 4 from by decide]

theorem strip_html_stage1_eq_id {s : List Char} (h1 : ¬ ".html".data <:+ s)
    (h2 : ¬ ".htm".data <:+ s) : strip_html_stage1 s = s := by
  unfold strip_html_stage1
  rw [stripSuffixOpt_eq_none h1, stripSuffixOpt_eq_none h2]

theorem strip_html_stage2_eq_of_pos {o : List Char} (h : "/index".data <:+ o) :
    strip_html_stage2 o = o.take (o.length - 5) := by
  have hidx : "index".data <:+ o :=
    List.IsSuffix.trans (by decide : "index".data <:+ "/index".data) h
  unfold strip_html_stage2
  rw [if_pos (List.isSuffixOf_iff_suffix.mpr h), stripSuffixOpt_eq_some hidx,
    show "index".data.length = 5 from by decide]

theorem strip_html_stage2_eq_of_neg {o : List Char} (h : ¬ "/index".data <:+ o) :
    strip_html_stage2 o = o := by
  unfold strip_html_stage2
  rw [if_neg (fun hh => h (List.isSuffixOf_iff_suffix.mp hh))]

theorem strip_html_stage1_append (d t : List Char) :
    strip_html_stage1 (d ++ '/' :: t) = d ++ strip_html_stage1 ('/' :: t) := by
  have hchtml : ('/' :: t) <:+ ".html".data → ".html".data <:+ ('/' :: t) :=
    fun hh => absurd (slash_cons_not_suffix (by decide) hh) id
  have hchtm : ('/' :: t) <:+ ".htm".data → ".htm".data <:+ ('/' :: t) :=
    fun hh => absurd (slash_cons_not_suffix (by decide) hh) id
  by_cases h1 : ".html".data <:+ '/' :: t
  · have h1d : ".html".data <:+ d ++ '/' :: t := suffix_append_absorb d h1
    have hk : 5 ≤ ('/' :: t).length := by
      have hl := h1.length_le
      rw [show ".html".data.length = 5 from by decide] at hl
      exact hl
    rw [strip_html_stage1_eq_html h1, strip_html_stage1_eq_html h1d]
    exact take_append_sub d _ 5 hk
  · have h1d : ¬ ".html".data <:+ d ++ '/' :: t :=
      fun hh => h1 ((suffix_append_iff_of_cases d hchtml).mp hh)
    by_cases h2 : ".htm".data <:+ '/' :: t
    · have h2d : ".htm".data <:+ d ++ '/' :: t := suffix_append_absorb d h2
      have hk : 4 ≤ ('/' :: t).length := by
        have hl := h2.length_le
        rw [show ".htm".data.length = 4 from by decide] at hl
        exact hl
      rw [strip_html_stage1_eq_htm h1d h2d, strip_html_stage1_eq_htm h1 h2]
      exact take_append_sub d _ 4 hk
    · have h2d : ¬ ".htm".data <:+ d ++ '/' :: t :=
        fun hh => h2 ((suffix_append_iff_of_cases d hchtm).mp hh)
      rw [strip_html_stage1_eq_id h1d h2d, strip_html_stage1_eq_id h1 h2]

theorem strip_html_stage1_shape (t : List Char) :
    ∃ t2, strip_html_stage1 ('/' :: t) = '/' :: t2 := by
  by_cases h1 : ".html".data <:+ '/' :: t
  · have hle : 4 ≤ t.length := by
      have hl := h1.length_le
      rw [show ".html".data.length = 5 from by decide, List.length_cons] at hl
      omega
    have hne : t.length ≠ 4 := by
      intro he
      have heq : ".html".data = '/' :: t :=
        h1.eq_of_length
          (by rw [show ".html".data.length = 5 from by decide, List.length_cons, he])
      exact absurd (by rw [heq]; exact List.mem_cons_self _ _ : ('/' : Char) ∈ ".html".data)
        (by decide)
    rw [strip_html_stage1_eq_html h1,
      show ('/' :: t).length - 5 = (t.length - 5) + 1 by rw [List.length_cons]; omega,
      List.take_succ_cons]
    exact ⟨_, rfl⟩
  · by_cases h2 : ".htm".data <:+ '/' :: t
    · have hle : 3 ≤ t.length := by
        have hl := h2.length_le
        rw [show ".htm".data.length = 4 from by decide, List.length_cons] at hl
        omega
      have hne : t.length ≠ 3 := by
        intro he
        have heq : ".htm".data = '/' :: t :=
          h2.eq_of_length
            (by rw [show ".htm".data.length = 4 from by decide, List.length_cons, he])
        exact absurd (by rw [heq]; exact List.mem_cons_self _ _ : ('/' : Char) ∈ ".htm".data)
          (by decide)
      rw [strip_html_stage1_eq_htm h1 h2,
        show ('/' :: t).length - 4 = (t.length - 4) + 1 by rw [List.length_cons]; omega,
        List.take_succ_cons]
      exact ⟨_, rfl⟩
    · rw [strip_html_stage1_eq_id h1 h2]
      exact ⟨t, rfl⟩

theorem strip_html_stage2_append (d t : List Char) :
    strip_html_stage2 (d ++ '/' :: t) = d ++ strip_html_stage2 ('/' :: t) := by
  by_cases h : "/index".data <:+ '/' :: t
  · have hd : "/index".data <:+ d ++ '/' :: t := suffix_append_absorb d h
    have hk : 5 ≤ ('/' :: t).length := by
      have hl := h.length_le
      rw [show "/index".data.length = 6 from by decide] at hl
      omega
    rw [strip_html_stage2_eq_of_pos hd, strip_html_stage2_eq_of_pos h]
    exact take_append_sub d _ 5 hk
  · rw [strip_html_stage2_eq_of_neg (fun hh => h ((slashindex_suffix_append_iff d).mp hh)),
      strip_html_stage2_eq_of_neg h]

theorem strip_html_ext_append (d t : List Char) :
    strip_html_ext (d ++ '/' :: t) = d ++ strip_html_ext ('/' :: t) := by
  unfold strip_html_ext
  rw [strip_html_stage1_append]
  obtain ⟨t2, h2⟩ := strip_html_stage1_shape t
  rw [h2, strip_html_stage2_append]

theorem strip_html_ext_eq_spec (s : List Char) : strip_html_ext s = routePathSpec s := by
  have hstage2 : ∀ o : List Char, strip_html_stage2 o = routeStripIndexSpec o := by
    intro o
    by_cases h : "/index".data <:+ o
    · rw [strip_html_stage2_eq_of_pos h]
      unfold routeStripIndexSpec
      rw [if_pos (List.isSuffixOf_iff_suffix.mpr h)]
    · rw [strip_html_stage2_eq_of_neg h]
      unfold routeStripIndexSpec
      rw [if_neg (fun hh => h (List.isSuffixOf_iff_suffix.mp hh))]
  have hstage1 : strip_html_stage1 s = routeStripExtSpec s := by
    unfold routeStripExtSpec
    by_cases h1 : ".html".data <:+ s
    · rw [strip_html_stage1_eq_html h1, if_pos (List.isSuffixOf_iff_suffix.mpr h1)]
    · rw [if_neg (fun hh => h1 (List.isSuffixOf_iff_suffix.mp hh))]
      by_cases h2 : ".htm".data <:+ s
      · rw [strip_html_stage1_eq_htm h1 h2, if_pos (List.isSuffixOf_iff_suffix.mpr h2)]
      · rw [strip_html_stage1_eq_id h1 h2,
          if_neg (fun hh => h2 (List.isSuffixOf_iff_suffix.mp hh))]
  unfold strip_html_ext routePathSpec
  rw [hstage1, hstage2]

theorem stripPrefixOpt_append (d r : List Char) : stripPrefixOpt d (d ++ r) = some r := by
  unfold stripPrefixOpt
  rw [if_pos (by simp [List.isPrefixOf_iff_prefix])]
  rw [List.drop_left]

theorem entry_path_dir_strip (dir t : List Char) :
    entry_path_dir dir (dir ++ '/' :: t) true "text/html" =
      some (routePathSpec ('/' :: t)) := by
  unfold entry_path_dir
  rw [if_pos (by simp)]
  rw [strip_html_ext_append, stripPrefixOpt_append]
  simp [strip_html_ext_eq_spec]

/-- C5: in directory mode with stripping enabled, the route of a text/html
file equals the root-relative path transformed as the spec words it
(drop .html or .htm, then a trailing index segment after a slash); the
root index.html maps to the root route; other content types or a
disabled flag keep the unmodified root-relative path. -/
theorem c5_route_paths :
    (∀ (dir t : List Char),
        entry_path_dir dir (dir ++ '/' :: t) true "text/html" =
          some (routePathSpec ('/' :: t))) ∧
    (∀ dir : List Char,
        entry_path_dir dir (dir ++ "/index.html".data) true "text/html" =
          some "/".data) ∧
    (∀ (dir rel : List Char) (strip : Bool) (ctype : String),
        (strip && (ctype == "text/html")) = false →
        entry_path_dir dir (dir ++ rel) strip ctype = some rel) := by
  refine ⟨fun dir t => entry_path_dir_strip dir t, ?_, ?_⟩
  · intro dir
    have h0 : "/index.html".data = '/' :: "index.html".data := by decide
    rw [h0, entry_path_dir_strip]
    decide
  · intro dir rel strip ctype hcond
    unfold entry_path_dir
    rw [if_neg (by simp [hcond])]
    exact stripPrefixOpt_append dir rel

/-- C5 witness: a concrete non-html file keeps its root-relative path. -/
theorem c5_route_paths_witness :
    ((true && ("text/css" == "text/html")) = false) ∧
    entry_path_dir "/r".data ("/r".data ++ "/app.css".data) true "text/css" =
      some "/app.css".data :=
  ⟨by decide, c5_route_paths.2.2 "/r".data "/app.css".data true "text/css" (by decide)⟩

end StaticServe

namespace StaticServe

theorem static_inner_matched (rs : RangeServer) (d : StaticInnerData)
    (hm : ifNoneMatchMatches d.if_none_match d.etag = true) :
    static_inner rs d =
      { status := 304
        headers := [("content-type", d.content_type), ("etag", d.etag),
            ("vary", "Accept-Encoding")] ++
          (if d.cache_busted then
            [("cache-control", "public, max-age=31536000, immutable")] else [])
        body := [] } := by
  simp only [static_inner, hm, if_true]

theorem static_inner_empty (rs : RangeServer) (d : StaticInnerData)
    (hm : ifNoneMatchMatches d.if_none_match d.etag = false)
    (hemp : (selectBody d.accept_encoding.gzip d.body_gz d.accept_encoding.zstd d.body_zst
      d.body d.http_range).1.isEmpty = true) :
    static_inner rs d =
      { status := 200
        headers := ("accept-ranges", "bytes") ::
          ([("content-type", d.content_type), ("etag", d.etag),
              ("vary", "Accept-Encoding")] ++
            (if d.cache_busted then
              [("cache-control", "public, max-age=31536000, immutable")] else [])) ++
          (selectBody d.accept_encoding.gzip d.body_gz d.accept_encoding.zstd d.body_zst
            d.body d.http_range).2.toList
        body := (selectBody d.accept_encoding.gzip d.body_gz d.accept_encoding.zstd d.body_zst
          d.body d.http_range).1 } := by
  simp only [static_inner, hm, Bool.false_eq_true, if_false, hemp, if_true]

theorem static_inner_rs_ok (rs : RangeServer) (d : StaticInnerData) (o : RangeOk)
    (hm : ifNoneMatchMatches d.if_none_match d.etag = false)
    (hemp : (selectBody d.accept_encoding.gzip d.body_gz d.accept_encoding.zstd d.body_zst
      d.body d.http_range).1.isEmpty = false)
    (ho : rs (selectBody d.accept_encoding.gzip d.body_gz d.accept_encoding.zstd d.body_zst
      d.body d.http_range).1 d.http_range = Except.ok o) :
    static_inner rs d =
      { status := o.status
        headers := (("accept-ranges", "bytes") ::
          ([("content-type", d.content_type), ("etag", d.etag),
              ("vary", "Accept-Encoding")] ++
            (if d.cache_busted then
              [("cache-control", "public, max-age=31536000, immutable")] else [])) ++
          (selectBody d.accept_encoding.gzip d.body_gz d.accept_encoding.zstd d.body_zst
            d.body d.http_range).2.toList) ++
          (o.contentRange.map (fun v => ("content-range", v))).toList ++
          (o.contentLength.map (fun v => ("content-length", v))).toList
        body := o.body } := by
  simp only [static_inner, hm, Bool.false_eq_true, if_false, hemp, ho]

theorem static_inner_rs_err (rs : RangeServer) (d : StaticInnerData) (u : UnsatisfiableRange)
    (hm : ifNoneMatchMatches d.if_none_match d.etag = false)
    (hemp : (selectBody d.accept_encoding.gzip d.body_gz d.accept_encoding.zstd d.body_zst
      d.body d.http_range).1.isEmpty = false)
    (hu : rs (selectBody d.accept_encoding.gzip d.body_gz d.accept_encoding.zstd d.body_zst
      d.body d.http_range).1 d.http_range = Except.error u) :
    static_inner rs d =
      { status := 416
        headers := (("accept-ranges", "bytes") ::
          ([("content-type", d.content_type), ("etag", d.etag),
              ("vary", "Accept-Encoding")] ++
            (if d.cache_busted then
              [("cache-control", "public, max-age=31536000, immutable")] else []))) ++
          [("content-range", u.contentRange)]
        body := [] } := by
  simp only [static_inner, hm, Bool.false_eq_true, if_false, hemp, hu]

end StaticServe

namespace StaticServe

theorem selectBody_snd_cases (g : Bool) (bg : Option (List Nat)) (z : Bool)
    (bz : Option (List Nat)) (b : List Nat) (hr : Option HttpRange) :
    (selectBody g bg z bz b hr).2 = none ∨
      (selectBody g bg z bz b hr).2 = some ("content-encoding", "zstd") ∨
      (selectBody g bg z bz b hr).2 = some ("content-encoding", "gzip") := by
  cases g <;> cases bg <;> cases z <;> cases bz <;> cases hr <;> simp [selectBody]

/-- C7: the response carries the immutable cache directive iff the
descriptor is cache busted; otherwise no cache-control header is present
in any branch of the engine. -/
theorem c7_cache_control_directive (rs : RangeServer) (d : StaticInnerData) :
    (static_inner rs d).headers.filter (fun hdr => hdr.1 == "cache-control") =
      (if d.cache_busted then
        [("cache-control", "public, max-age=31536000, immutable")] else []) := by
  by_cases hm : ifNoneMatchMatches d.if_none_match d.etag
  · rw [static_inner_matched rs d hm]
    cases hcb : d.cache_busted <;> simp
  · rw [Bool.not_eq_true] at hm
    by_cases hemp : (selectBody d.accept_encoding.gzip d.body_gz d.accept_encoding.zstd
        d.body_zst d.body d.http_range).1.isEmpty
    · rw [static_inner_empty rs d hm hemp]
      rcases selectBody_snd_cases d.accept_encoding.gzip d.body_gz d.accept_encoding.zstd
          d.body_zst d.body d.http_range with h | h | h <;>
        cases hcb : d.cache_busted <;> simp [h]
    · rw [Bool.not_eq_true] at hemp
      cases hrs : rs (selectBody d.accept_encoding.gzip d.body_gz d.accept_encoding.zstd
          d.body_zst d.body d.http_range).1 d.http_range with
      | ok o =>
        rw [static_inner_rs_ok rs d o hm hemp hrs]
        rcases selectBody_snd_cases d.accept_encoding.gzip d.body_gz d.accept_encoding.zstd
            d.body_zst d.body d.http_range with h | h | h <;>
          rcases o with ⟨st, cr, cl, ob⟩ <;> cases cr <;> cases cl <;>
          cases hcb : d.cache_busted <;> simp [h]
      | error u =>
        rw [static_inner_rs_err rs d u hm hemp hrs]
        cases hcb : d.cache_busted <;> simp

end StaticServe

namespace StaticServe

theorem ifNoneMatchMatches_iff (inm : Option String) (e : String) :
    ifNoneMatchMatches inm e = true ↔ inm = some e := by
  cases inm <;> simp [ifNoneMatchMatches]

theorem static_inner_status_not_304 (rs : RangeServer) (d : StaticInnerData)
    (hm : ifNoneMatchMatches d.if_none_match d.etag = false)
    (hrs : ∀ bs r o, rs bs r = Except.ok o → o.status ≠ 304) :
    (static_inner rs d).status ≠ 304 := by
  by_cases hemp : (selectBody d.accept_encoding.gzip d.body_gz d.accept_encoding.zstd
      d.body_zst d.body d.http_range).1.isEmpty
  · rw [static_inner_empty rs d hm hemp]
    simp
  · rw [Bool.not_eq_true] at hemp
    cases hcall : rs (selectBody d.accept_encoding.gzip d.body_gz d.accept_encoding.zstd
        d.body_zst d.body d.http_range).1 d.http_range with
    | ok o =>
      rw [static_inner_rs_ok rs d o hm hemp hcall]
      exact hrs _ _ _ hcall
    | error u =>
      rw [static_inner_rs_err rs d u hm hemp hcall]
      simp

end StaticServe

namespace StaticServe

theorem beBytes_lt (n v : Nat) : ∀ x ∈ beBytes n v, x < 256 := by
  induction n generalizing v with
  | zero => intro x hx; cases hx
  | succ n ih =>
    intro x hx
    unfold beBytes at hx
    rcases List.mem_append.mp hx with h | h
    · exact ih _ x h
    · rw [List.mem_singleton] at h
      rw [h]
      exact Nat.mod_lt _ (by norm_num)

theorem beBytes_length (n v : Nat) : (beBytes n v).length = n := by
  induction n generalizing v with
  | zero => rfl
  | succ n ih => simp [beBytes, ih]

theorem sha1_bytes_lt (msg : List Nat) : ∀ x ∈ sha1 msg, x < 256 := by
  unfold sha1
  rcases (chunks64 (sha1pad msg)).foldl sha1chunk
      (1732584193, 4023233417, 2562383102, 271733878, 3285377520) with ⟨h0, h1, h2, h3, h4⟩
  intro x hx
  simp only [List.mem_append] at hx
  rcases hx with ((((h | h) | h) | h) | h) <;> exact beBytes_lt _ _ x h

theorem sha1_length (msg : List Nat) : (sha1 msg).length = 20 := by
  unfold sha1
  rcases (chunks64 (sha1pad msg)).foldl sha1chunk
      (1732584193, 4023233417, 2562383102, 271733878, 3285377520) with ⟨h0, h1, h2, h3, h4⟩
  simp [beBytes_length]

theorem u64_from_le_lt (l : List Nat) (hb : ∀ x ∈ l, x < 256) :
    u64_from_le l < 256 ^ l.length := by
  induction l with
  | nil => simp [u64_from_le]
  | cons a l ih =>
    have ha := hb a (List.mem_cons_self _ _)
    have hl := ih (fun x hx => hb x (List.mem_cons_of_mem _ hx))
    simp only [u64_from_le, List.foldr_cons] at hl ⊢
    have h2 : 256 * (l.foldr (fun b acc => b + 256 * acc) 0 + 1) ≤ 256 * 256 ^ l.length :=
      Nat.mul_le_mul_left _ hl
    rw [List.length_cons, pow_succ]
    omega

theorem u64_from_le_le_two_pow {l : List Nat} (hlen : l.length ≤ 8)
    (hb : ∀ x ∈ l, x < 256) : u64_from_le l < 2 ^ 64 := by
  have h1 := u64_from_le_lt l hb
  have h2 : (256 : Nat) ^ l.length ≤ 256 ^ 8 :=
    Nat.pow_le_pow_right (by norm_num) hlen
  have h3 : (256 : Nat) ^ 8 = 2 ^ 64 := by norm_num
  omega

theorem byte_add_xor (A B a0 b0 : Nat) (ha : a0 < 2 ^ 8) (hb : b0 < 2 ^ 8) :
    (2 ^ 8 * A + a0) ^^^ (2 ^ 8 * B + b0) = 2 ^ 8 * (A ^^^ B) + (a0 ^^^ b0) := by
  apply Nat.eq_of_testBit_eq
  intro j
  rw [Nat.testBit_xor, Nat.testBit_mul_pow_two_add A ha j,
    Nat.testBit_mul_pow_two_add B hb j,
    Nat.testBit_mul_pow_two_add (A ^^^ B) (Nat.xor_lt_two_pow ha hb) j]
  by_cases hj : j < 8
  · simp [hj]
  · simp [hj]

theorem u64_from_le_zipWith_xor (a : List Nat) :
    ∀ (b : List Nat), a.length = b.length → (∀ x ∈ a, x < 256) → (∀ x ∈ b, x < 256) →
      u64_from_le (List.zipWith (fun x y => x ^^^ y) a b) =
        u64_from_le a ^^^ u64_from_le b := by
  induction a with
  | nil =>
    intro b hlen _ _
    cases b with
    | nil => simp [u64_from_le]
    | cons y b => simp at hlen
  | cons x a ih =>
    intro b hlen hax hbx
    cases b with
    | nil => cases hlen
    | cons y b =>
      have hx := hax x (List.mem_cons_self _ _)
      have hy := hbx y (List.mem_cons_self _ _)
      have ihr := ih b (by simpa using hlen)
        (fun v hv => hax v (List.mem_cons_of_mem _ hv))
        (fun v hv => hbx v (List.mem_cons_of_mem _ hv))
      simp only [List.zipWith_cons_cons, u64_from_le, List.foldr_cons] at ihr ⊢
      rw [ihr]
      have key := byte_add_xor (a.foldr (fun v acc => v + 256 * acc) 0)
        (b.foldr (fun v acc => v + 256 * acc) 0) x y (by omega) (by omega)
      have e1 : x + 256 * a.foldr (fun v acc => v + 256 * acc) 0 =
          2 ^ 8 * a.foldr (fun v acc => v + 256 * acc) 0 + x := by ring
      have e2 : y + 256 * b.foldr (fun v acc => v + 256 * acc) 0 =
          2 ^ 8 * b.foldr (fun v acc => v + 256 * acc) 0 + y := by ring
      rw [e1, e2, key]
      ring

theorem etag_eq_etagRef (contents : List Nat) : etag contents = etagRef contents := by
  simp only [etag, etagRef]
  have hb := sha1_bytes_lt contents
  have hlen : ((sha1 contents).take 8).length = (((sha1 contents).drop 8).take 8).length := by
    simp [List.length_take, List.length_drop, sha1_length]
  rw [u64_from_le_zipWith_xor _ _ hlen
    (fun x hx => hb x (List.mem_of_mem_take hx))
    (fun x hx => hb x (List.mem_of_mem_drop (List.mem_of_mem_take hx)))]

theorem hexPad_length (n v : Nat) : (hexPad n v).length = n := by
  induction n generalizing v with
  | zero => rfl
  | succ n ih => simp [hexPad, ih]

theorem hexDigitChar_mem (n : Nat) (h : n < 16) :
    hexDigitChar n ∈ "0123456789abcdef".data := by
  interval_cases n <;> decide

theorem hexPad_mem (n v : Nat) : ∀ c ∈ hexPad n v, c ∈ "0123456789abcdef".data := by
  induction n generalizing v with
  | zero => intro c hc; cases hc
  | succ n ih =>
    intro c hc
    unfold hexPad at hc
    rcases List.mem_append.mp hc with h | h
    · exact ih _ c h
    · rw [List.mem_singleton] at h
      rw [h]
      exact hexDigitChar_mem _ (Nat.mod_lt _ (by norm_num))

theorem etag_length (b : List Nat) : (etag b).length = 18 := by
  unfold etag
  show (Char.ofNat 34 :: (hexPad 16 _ ++ [Char.ofNat 34])).length = 18
  simp [hexPad_length]

end StaticServe

namespace StaticServe

/-- C4: the etag function equals the reference definition of the spec
(sha1, bytewise XOR fold of the two 8-byte halves, 16 zero-padded
lowercase hex digits in double quotes), is deterministic, and renders as
a quoted fixed-width lowercase hex string of total length 18. -/
theorem c4_etag_reference (b : List Nat) :
    etag b = etagRef b ∧
    (∀ b2, b = b2 → etag b = etag b2) ∧
    (etag b).length = 18 ∧
    (etag b).data.head? = some (Char.ofNat 34) ∧
    (etag b).data.getLast? = some (Char.ofNat 34) ∧
    (∀ c ∈ ((etag b).data.drop 1).take 16, c ∈ "0123456789abcdef".data) := by
  obtain ⟨X, hX⟩ : ∃ X, (etag b).data = Char.ofNat 34 :: (hexPad 16 X ++ [Char.ofNat 34]) :=
    ⟨_, rfl⟩
  refine ⟨etag_eq_etagRef b, fun b2 hb => by rw [hb], etag_length b, ?_, ?_, ?_⟩
  · rw [hX]
    rfl
  · rw [hX, show Char.ofNat 34 :: (hexPad 16 X ++ [Char.ofNat 34]) =
      (Char.ofNat 34 :: hexPad 16 X) ++ [Char.ofNat 34] from rfl, List.getLast?_concat]
  · intro c hc
    rw [hX, List.drop_succ_cons, List.drop_zero,
      List.take_left' (hexPad_length 16 X)] at hc
    exact hexPad_mem 16 X c hc

/-- C4 witness: the hypotheses of the determinism conjunct hold at the
empty buffer. -/
theorem c4_etag_reference_witness : etag [] = etagRef [] ∧ etag [] = etag [] :=
  ⟨(c4_etag_reference []).1, (c4_etag_reference []).2.1 [] rfl⟩

/-- C10: a 304 is produced exactly when the If-None-Match value equals,
as a whole, the stored quoted etag; a star value, a weak W/ prefixed
validator, or a comma-separated list containing the etag never matches. -/
theorem c10_conditional_whole_value (rs : RangeServer) (ct : String)
    (contents b : List Nat) (gz zst : Option (List Nat)) (cb : Bool)
    (ae : AcceptEncoding) (inm : Option String) (hr : Option HttpRange)
    (hrs : ∀ bs r o, rs bs r = Except.ok o → o.status ≠ 304) :
    ((static_inner rs ⟨ct, etag contents, b, gz, zst, cb, ae, inm, hr⟩).status = 304 ↔
      inm = some (etag contents)) ∧
    (inm = some "*" →
      (static_inner rs ⟨ct, etag contents, b, gz, zst, cb, ae, inm, hr⟩).status ≠ 304) ∧
    (inm = some ("W/" ++ etag contents) →
      (static_inner rs ⟨ct, etag contents, b, gz, zst, cb, ae, inm, hr⟩).status ≠ 304) ∧
    (∀ t, inm = some (etag contents ++ "," ++ t) →
      (static_inner rs ⟨ct, etag contents, b, gz, zst, cb, ae, inm, hr⟩).status ≠ 304) ∧
    (∀ t, inm = some (t ++ "," ++ etag contents) →
      (static_inner rs ⟨ct, etag contents, b, gz, zst, cb, ae, inm, hr⟩).status ≠ 304) := by
  have hcomma : String.length "," = 1 := by decide
  have hmain : (static_inner rs
      ⟨ct, etag contents, b, gz, zst, cb, ae, inm, hr⟩).status = 304 ↔
      inm = some (etag contents) := by
    constructor
    · intro h304
      by_contra hne
      have hm : ifNoneMatchMatches inm (etag contents) = false := by
        cases hb : ifNoneMatchMatches inm (etag contents) with
        | false => rfl
        | true => exact absurd ((ifNoneMatchMatches_iff _ _).mp hb) hne
      exact static_inner_status_not_304 rs _ hm hrs h304
    · intro he
      subst he
      rw [static_inner_matched rs _ (by simp [ifNoneMatchMatches])]
  refine ⟨hmain, ?_, ?_, ?_, ?_⟩
  · intro h
    simp only [Ne]
    rw [hmain, h]
    intro hEq
    have h1 := congrArg String.length (Option.some.inj hEq)
    rw [etag_length] at h1
    exact absurd h1 (by decide)
  · intro h
    simp only [Ne]
    rw [hmain, h]
    intro hEq
    have h1 := congrArg String.length (Option.some.inj hEq)
    rw [String.length_append, etag_length] at h1
    exact absurd h1 (by decide)
  · intro t h
    simp only [Ne]
    rw [hmain, h]
    intro hEq
    have h1 := congrArg String.length (Option.some.inj hEq)
    rw [String.length_append, String.length_append, etag_length, hcomma] at h1
    omega
  · intro t h
    simp only [Ne]
    rw [hmain, h]
    intro hEq
    have h1 := congrArg String.length (Option.some.inj hEq)
    rw [String.length_append, String.length_append, etag_length, hcomma] at h1
    omega

theorem serve_model_ok_status (bs : List Nat) (r : Option HttpRange) (o : RangeOk)
    (h : serve_file_with_http_range bs r = Except.ok o) :
    o.status = 200 ∨ o.status = 206 := by
  cases r with
  | none =>
    cases h
    left
    rfl
  | some rr =>
    rcases rr with ⟨s, e⟩
    simp only [serve_file_with_http_range] at h
    split at h
    · cases h
      right
      rfl
    · cases h

/-- C10 witness: instantiated with the modelled range collaborator, whose
successful statuses are never 304, and a request with no conditional
header, which is not answered 304. -/
theorem c10_conditional_whole_value_witness :
    (∀ bs r o, serve_file_with_http_range bs r = Except.ok o → o.status ≠ 304) ∧
    ¬ (static_inner serve_file_with_http_range
      ⟨"text/plain", etag [], [], none, none, false,
        ⟨false, false⟩, none, none⟩).status = 304 := by
  have hrs : ∀ bs r o, serve_file_with_http_range bs r = Except.ok o → o.status ≠ 304 := by
    intro bs r o h
    rcases serve_model_ok_status bs r o h with h2 | h2 <;> omega
  refine ⟨hrs, ?_⟩
  rw [(c10_conditional_whole_value serve_file_with_http_range "text/plain" [] []
    none none false ⟨false, false⟩ none none hrs).1]
  simp

end StaticServe

namespace StaticServe

theorem selectBody_zstd (g : Bool) (bg : Option (List Nat)) (bz b : List Nat) :
    selectBody g bg true (some bz) b none = (bz, some ("content-encoding", "zstd")) := by
  cases g <;> cases bg <;> rfl

theorem selectBody_gzip (z : Bool) (bz : Option (List Nat)) (bgz b : List Nat)
    (hz : z = false ∨ bz = none) :
    selectBody true (some bgz) z bz b none = (bgz, some ("content-encoding", "gzip")) := by
  rcases hz with rfl | rfl
  · cases bz <;> rfl
  · cases z <;> rfl

theorem selectBody_raw_none (g z : Bool) (bg bz : Option (List Nat)) (b : List Nat)
    (hg : g = false ∨ bg = none) (hz : z = false ∨ bz = none) :
    selectBody g bg z bz b none = (b, none) := by
  cases g <;> cases z <;> cases bg <;> cases bz <;> simp_all [selectBody]

theorem selectBody_range (g z : Bool) (bg bz : Option (List Nat)) (b : List Nat)
    (r : HttpRange) :
    selectBody g bg z bz b (some r) = (b, none) := by
  cases g <;> cases z <;> cases bg <;> cases bz <;> rfl

end StaticServe

namespace StaticServe

/-- C1: outside a conditional match, the body is selected zstd first (when
accepted, present, and no range), then gzip, then the raw body; a range
request is always served from the raw body and never carries a
content-encoding header; the content-encoding header names the chosen
codec exactly when a compressed variant is chosen. -/
theorem c1_encoding_selection (rs : RangeServer) (ct e : String) (b : List Nat)
    (gz zst : Option (List Nat)) (cb g z : Bool) (inm : Option String)
    (hr : Option HttpRange)
    (hm : ifNoneMatchMatches inm e = false)
    (hfull : ∀ bs, ∃ o, rs bs none = Except.ok o ∧ o.body = bs ∧ o.status = 200) :
    (∀ bz2, z = true → zst = some bz2 → hr = none →
      (static_inner rs ⟨ct, e, b, gz, zst, cb, ⟨g, z⟩, inm, hr⟩).body = bz2 ∧
      ("content-encoding", "zstd") ∈
        (static_inner rs ⟨ct, e, b, gz, zst, cb, ⟨g, z⟩, inm, hr⟩).headers) ∧
    (∀ bgz, (z = false ∨ zst = none) → g = true → gz = some bgz → hr = none →
      (static_inner rs ⟨ct, e, b, gz, zst, cb, ⟨g, z⟩, inm, hr⟩).body = bgz ∧
      ("content-encoding", "gzip") ∈
        (static_inner rs ⟨ct, e, b, gz, zst, cb, ⟨g, z⟩, inm, hr⟩).headers) ∧
    ((z = false ∨ zst = none) → (g = false ∨ gz = none) → hr = none →
      (static_inner rs ⟨ct, e, b, gz, zst, cb, ⟨g, z⟩, inm, hr⟩).body = b ∧
      ∀ v, ("content-encoding", v) ∉
        (static_inner rs ⟨ct, e, b, gz, zst, cb, ⟨g, z⟩, inm, hr⟩).headers) ∧
    (∀ r, hr = some r →
      (∀ v, ("content-encoding", v) ∉
        (static_inner rs ⟨ct, e, b, gz, zst, cb, ⟨g, z⟩, inm, hr⟩).headers) ∧
      (b = [] → (static_inner rs ⟨ct, e, b, gz, zst, cb, ⟨g, z⟩, inm, hr⟩).body = []) ∧
      (b ≠ [] →
        ((∃ o, rs b (some r) = Except.ok o ∧
            (static_inner rs ⟨ct, e, b, gz, zst, cb, ⟨g, z⟩, inm, hr⟩).status = o.status ∧
            (static_inner rs ⟨ct, e, b, gz, zst, cb, ⟨g, z⟩, inm, hr⟩).body = o.body) ∨
         (∃ u, rs b (some r) = Except.error u ∧
            (static_inner rs ⟨ct, e, b, gz, zst, cb, ⟨g, z⟩, inm, hr⟩).status = 416 ∧
            (static_inner rs ⟨ct, e, b, gz, zst, cb, ⟨g, z⟩, inm, hr⟩).body = [] ∧
            ("content-range", u.contentRange) ∈
              (static_inner rs ⟨ct, e, b, gz, zst, cb, ⟨g, z⟩, inm, hr⟩).headers)))) := by
  refine ⟨?_, ?_, ?_, ?_⟩
  · intro bz2 hz hzst hhr
    subst hz
    subst hzst
    subst hhr
    have hsel := selectBody_zstd g gz bz2 b
    by_cases hemp : bz2.isEmpty
    · rw [static_inner_empty rs ⟨ct, e, b, gz, some bz2, cb, ⟨g, true⟩, inm, none⟩ hm
        (show (selectBody g gz true (some bz2) b none).1.isEmpty = true by
          rw [hsel]; exact hemp)]
      exact ⟨by simp [hsel], by simp [hsel]⟩
    · obtain ⟨o, ho, hob, host⟩ := hfull bz2
      rw [static_inner_rs_ok rs ⟨ct, e, b, gz, some bz2, cb, ⟨g, true⟩, inm, none⟩ o hm
        (show (selectBody g gz true (some bz2) b none).1.isEmpty = false by
          rw [hsel]; simpa using hemp)
        (show rs (selectBody g gz true (some bz2) b none).1 none = Except.ok o by
          rw [hsel]; exact ho)]
      exact ⟨by simpa using hob, by simp [hsel]⟩
  · intro bgz hz hg hgz hhr
    subst hg
    subst hgz
    subst hhr
    have hsel := selectBody_gzip z zst bgz b hz
    by_cases hemp : bgz.isEmpty
    · rw [static_inner_empty rs ⟨ct, e, b, some bgz, zst, cb, ⟨true, z⟩, inm, none⟩ hm
        (show (selectBody true (some bgz) z zst b none).1.isEmpty = true by
          rw [hsel]; exact hemp)]
      exact ⟨by simp [hsel], by simp [hsel]⟩
    · obtain ⟨o, ho, hob, host⟩ := hfull bgz
      rw [static_inner_rs_ok rs ⟨ct, e, b, some bgz, zst, cb, ⟨true, z⟩, inm, none⟩ o hm
        (show (selectBody true (some bgz) z zst b none).1.isEmpty = false by
          rw [hsel]; simpa using hemp)
        (show rs (selectBody true (some bgz) z zst b none).1 none = Except.ok o by
          rw [hsel]; exact ho)]
      exact ⟨by simpa using hob, by simp [hsel]⟩
  · intro hz hg hhr
    subst hhr
    have hsel := selectBody_raw_none g z gz zst b hg hz
    by_cases hemp : b.isEmpty
    · rw [static_inner_empty rs ⟨ct, e, b, gz, zst, cb, ⟨g, z⟩, inm, none⟩ hm
        (show (selectBody g gz z zst b none).1.isEmpty = true by
          rw [hsel]; exact hemp)]
      refine ⟨by simp [hsel], ?_⟩
      intro v
      cases cb <;> simp [hsel]
    · obtain ⟨o, ho, hob, host⟩ := hfull b
      rcases o with ⟨ost, ocr, ocl, ob⟩
      rw [static_inner_rs_ok rs ⟨ct, e, b, gz, zst, cb, ⟨g, z⟩, inm, none⟩ ⟨ost, ocr, ocl, ob⟩
          hm
        (show (selectBody g gz z zst b none).1.isEmpty = false by
          rw [hsel]; simpa using hemp)
        (show rs (selectBody g gz z zst b none).1 none = Except.ok ⟨ost, ocr, ocl, ob⟩ by
          rw [hsel]; exact ho)]
      refine ⟨by simpa using hob, ?_⟩
      intro v
      cases ocr <;> cases ocl <;> cases cb <;> simp [hsel]
  · intro r hhr
    subst hhr
    have hsel := selectBody_range g z gz zst b r
    refine ⟨?_, ?_, ?_⟩
    · intro v
      by_cases hemp : b.isEmpty
      · rw [static_inner_empty rs ⟨ct, e, b, gz, zst, cb, ⟨g, z⟩, inm, some r⟩ hm
          (show (selectBody g gz z zst b (some r)).1.isEmpty = true by
            rw [hsel]; exact hemp)]
        cases cb <;> simp [hsel]
      · cases hcall : rs b (some r) with
        | ok o =>
          rcases o with ⟨ost, ocr, ocl, ob⟩
          rw [static_inner_rs_ok rs ⟨ct, e, b, gz, zst, cb, ⟨g, z⟩, inm, some r⟩
              ⟨ost, ocr, ocl, ob⟩ hm
            (show (selectBody g gz z zst b (some r)).1.isEmpty = false by
              rw [hsel]; simpa using hemp)
            (show rs (selectBody g gz z zst b (some r)).1 (some r) =
                Except.ok ⟨ost, ocr, ocl, ob⟩ by
              rw [hsel]; exact hcall)]
          cases ocr <;> cases ocl <;> cases cb <;> simp [hsel]
        | error u =>
          rw [static_inner_rs_err rs ⟨ct, e, b, gz, zst, cb, ⟨g, z⟩, inm, some r⟩ u hm
            (show (selectBody g gz z zst b (some r)).1.isEmpty = false by
              rw [hsel]; simpa using hemp)
            (show rs (selectBody g gz z zst b (some r)).1 (some r) = Except.error u by
              rw [hsel]; exact hcall)]
          cases cb <;> simp [hsel]
    · intro hb0
      subst hb0
      rw [static_inner_empty rs ⟨ct, e, [], gz, zst, cb, ⟨g, z⟩, inm, some r⟩ hm
        (show (selectBody g gz z zst [] (some r)).1.isEmpty = true by
          rw [selectBody_range g z gz zst [] r]; rfl)]
      simp [selectBody_range g z gz zst [] r]
    · intro hbne
      have hemp : b.isEmpty = false := by
        cases b with
        | nil => exact absurd rfl hbne
        | cons x xs => rfl
      cases hcall : rs b (some r) with
      | ok o =>
        rw [static_inner_rs_ok rs ⟨ct, e, b, gz, zst, cb, ⟨g, z⟩, inm, some r⟩ o hm
          (show (selectBody g gz z zst b (some r)).1.isEmpty = false by
            rw [hsel]; exact hemp)
          (show rs (selectBody g gz z zst b (some r)).1 (some r) = Except.ok o by
            rw [hsel]; exact hcall)]
        exact Or.inl ⟨o, rfl, rfl, rfl⟩
      | error u =>
        rw [static_inner_rs_err rs ⟨ct, e, b, gz, zst, cb, ⟨g, z⟩, inm, some r⟩ u hm
          (show (selectBody g gz z zst b (some r)).1.isEmpty = false by
            rw [hsel]; exact hemp)
          (show rs (selectBody g gz z zst b (some r)).1 (some r) = Except.error u by
            rw [hsel]; exact hcall)]
        exact Or.inr ⟨u, rfl, rfl, rfl, by simp⟩

end StaticServe

namespace StaticServe

/-- C1 witness: a zstd-accepting request with a present zstd variant and
no range is served the zstd bytes. -/
theorem c1_encoding_selection_witness :
    ifNoneMatchMatches none "x" = false ∧
    (∀ bs, ∃ o, serve_file_with_http_range bs none = Except.ok o ∧ o.body = bs ∧
      o.status = 200) ∧
    (static_inner serve_file_with_http_range
      ⟨"text/plain", "x", [1, 2], none, some [9], false, ⟨false, true⟩, none,
        none⟩).body = [9] := by
  have hm : ifNoneMatchMatches none "x" = false := rfl
  have hfull : ∀ bs : List Nat, ∃ o, serve_file_with_http_range bs none = Except.ok o ∧
      o.body = bs ∧ o.status = 200 := fun bs => ⟨_, rfl, rfl, rfl⟩
  exact ⟨hm, hfull,
    ((c1_encoding_selection serve_file_with_http_range "text/plain" "x" [1, 2] none
      (some [9]) false false true none none hm hfull).1 [9] rfl rfl rfl).1⟩

theorem serve_model_some_status (bs : List Nat) (r : HttpRange) (o : RangeOk)
    (h : serve_file_with_http_range bs (some r) = Except.ok o) : o.status = 206 := by
  rcases r with ⟨s, e⟩
  simp only [serve_file_with_http_range] at h
  split at h
  · cases h
    rfl
  · cases h

/-- C9: with no range the engine answers 200 with the full selected body
and advertises accept-ranges bytes; an empty selected body short-circuits
to a full 200 response even when a range was requested; a range against a
nonempty body is delegated and the outcome is exactly the collaborator
result, a 206 partial or a well-formed 416, never anything else. -/
theorem c9_range_serving (rs : RangeServer) (ct e : String) (b : List Nat)
    (gz zst : Option (List Nat)) (cb g z : Bool) (inm : Option String)
    (hr : Option HttpRange)
    (hm : ifNoneMatchMatches inm e = false)
    (hfull : ∀ bs, ∃ o, rs bs none = Except.ok o ∧ o.body = bs ∧ o.status = 200)
    (h206 : ∀ bs r o, rs bs (some r) = Except.ok o → o.status = 206) :
    (hr = none →
      (static_inner rs ⟨ct, e, b, gz, zst, cb, ⟨g, z⟩, inm, hr⟩).status = 200 ∧
      ("accept-ranges", "bytes") ∈
        (static_inner rs ⟨ct, e, b, gz, zst, cb, ⟨g, z⟩, inm, hr⟩).headers ∧
      (static_inner rs ⟨ct, e, b, gz, zst, cb, ⟨g, z⟩, inm, hr⟩).body =
        (selectBody g gz z zst b hr).1) ∧
    ((selectBody g gz z zst b hr).1 = [] →
      (static_inner rs ⟨ct, e, b, gz, zst, cb, ⟨g, z⟩, inm, hr⟩).status = 200 ∧
      (static_inner rs ⟨ct, e, b, gz, zst, cb, ⟨g, z⟩, inm, hr⟩).body = []) ∧
    (∀ r, hr = some r → b ≠ [] →
      (((static_inner rs ⟨ct, e, b, gz, zst, cb, ⟨g, z⟩, inm, hr⟩).status = 206 ∧
         ∃ o, rs b (some r) = Except.ok o ∧
           (static_inner rs ⟨ct, e, b, gz, zst, cb, ⟨g, z⟩, inm, hr⟩).body = o.body) ∨
       ((static_inner rs ⟨ct, e, b, gz, zst, cb, ⟨g, z⟩, inm, hr⟩).status = 416 ∧
         ∃ u, rs b (some r) = Except.error u ∧
           ("content-range", u.contentRange) ∈
             (static_inner rs ⟨ct, e, b, gz, zst, cb, ⟨g, z⟩, inm, hr⟩).headers)) ∧
      ("accept-ranges", "bytes") ∈
        (static_inner rs ⟨ct, e, b, gz, zst, cb, ⟨g, z⟩, inm, hr⟩).headers) := by
  refine ⟨?_, ?_, ?_⟩
  · intro hhr
    subst hhr
    by_cases hemp : (selectBody g gz z zst b none).1.isEmpty
    · rw [static_inner_empty rs ⟨ct, e, b, gz, zst, cb, ⟨g, z⟩, inm, none⟩ hm hemp]
      refine ⟨rfl, by simp, ?_⟩
      simp
    · obtain ⟨o, ho, hob, host⟩ := hfull ((selectBody g gz z zst b none).1)
      rw [static_inner_rs_ok rs ⟨ct, e, b, gz, zst, cb, ⟨g, z⟩, inm, none⟩ o hm
        (by simpa using hemp) ho]
      refine ⟨by simpa using host, by simp, by simpa using hob⟩
  · intro hsel1
    have hemp : (selectBody g gz z zst b hr).1.isEmpty = true := by
      rw [hsel1]
      rfl
    rw [static_inner_empty rs ⟨ct, e, b, gz, zst, cb, ⟨g, z⟩, inm, hr⟩ hm hemp]
    exact ⟨rfl, by simpa using hsel1⟩
  · intro r hhr hbne
    subst hhr
    have hselr := selectBody_range g z gz zst b r
    have hemp : (selectBody g gz z zst b (some r)).1.isEmpty = false := by
      rw [hselr]
      cases b with
      | nil => exact absurd rfl hbne
      | cons x xs => rfl
    cases hcall : rs b (some r) with
    | ok o =>
      rw [static_inner_rs_ok rs ⟨ct, e, b, gz, zst, cb, ⟨g, z⟩, inm, some r⟩ o hm hemp
        (show rs (selectBody g gz z zst b (some r)).1 (some r) = Except.ok o by
          rw [hselr]; exact hcall)]
      refine ⟨Or.inl ⟨by simpa using h206 b r o hcall, o, rfl, rfl⟩, by simp⟩
    | error u =>
      rw [static_inner_rs_err rs ⟨ct, e, b, gz, zst, cb, ⟨g, z⟩, inm, some r⟩ u hm hemp
        (show rs (selectBody g gz z zst b (some r)).1 (some r) = Except.error u by
          rw [hselr]; exact hcall)]
      refine ⟨Or.inr ⟨rfl, u, rfl, by simp⟩, by simp⟩

/-- C9 witness: instantiated with the modelled range collaborator and a
request with no range, answered 200. -/
theorem c9_range_serving_witness :
    ifNoneMatchMatches none "x" = false ∧
    (∀ bs, ∃ o, serve_file_with_http_range bs none = Except.ok o ∧ o.body = bs ∧
      o.status = 200) ∧
    (∀ bs (r : HttpRange) o, serve_file_with_http_range bs (some r) = Except.ok o →
      o.status = 206) ∧
    (static_inner serve_file_with_http_range
      ⟨"text/plain", "x", [5], none, none, false, ⟨false, false⟩, none,
        none⟩).status = 200 := by
  have hm : ifNoneMatchMatches none "x" = false := rfl
  have hfull : ∀ bs : List Nat, ∃ o, serve_file_with_http_range bs none = Except.ok o ∧
      o.body = bs ∧ o.status = 200 := fun bs => ⟨_, rfl, rfl, rfl⟩
  have h206 : ∀ (bs : List Nat) (r : HttpRange) (o : RangeOk),
      serve_file_with_http_range bs (some r) = Except.ok o → o.status = 206 :=
    fun bs r o h => serve_model_some_status bs r o h
  exact ⟨hm, hfull, h206,
    ((c9_range_serving serve_file_with_http_range "text/plain" "x" [5] none none false
      false false none none hm hfull h206).1 rfl).1⟩

end StaticServe

namespace StaticServe

/-- C8 witness: a single discovered entry with a missing extension fails
the whole batch. -/
theorem c8_unknown_extension_failfast_witness :
    (⟨["f"], "/r/f".data, none, []⟩ : EntryData) ∈
      [(⟨["f"], "/r/f".data, none, []⟩ : EntryData)] ∧
    (file_content_type (fun _ => none)
      ((⟨["f"], "/r/f".data, none, []⟩ : EntryData).ext)).isOk = false ∧
    (generate_static_routes (fun _ => none) id id "/r".data [] [] false false
      [⟨["f"], "/r/f".data, none, []⟩]).isOk = false := by
  refine ⟨List.mem_cons_self _ _, rfl, ?_⟩
  exact c8_unknown_extension_failfast.2.2 (fun _ => none) id id "/r".data [] [] false false
    [⟨["f"], "/r/f".data, none, []⟩] ⟨["f"], "/r/f".data, none, []⟩
    (List.mem_cons_self _ _) rfl

end StaticServe
